import Mathlib

/-!
# Verification of `live_vlm_webui.object_detection_service`

A shallow embedding of `src/live_vlm_webui/object_detection_service.py`
(class `ObjectDetectionService`) and proofs of the specification claims.

Modelling choices:
* Python floats are modelled as exact rationals (`Rat`); Python's
  `round(x, n)` is round-half-to-even, modelled exactly on `Rat`.
* The YOLO backend is opaque: a loaded model carries its class-name table
  (a Python dict `int -> str`, modelled as an association list), and the
  outcome of each backend call (raise, or return raw results) is a
  parameter of the embedded operation, as is the measured wall-clock
  latency of a call.
* `asyncio.Lock` state is the boolean field `lock_held`; the module-level
  `YOLO_AVAILABLE` flag is a boolean parameter.
* Exceptions are explicit: operations return the post state together with
  a flag or sum describing whether an exception escaped.
* Two instrumentation counters, `ev_constructions` and `ev_backend_calls`,
  are not fields of the Python object; they count model-construction
  events (`YOLO(path)`) and backend invocations (warm-up and inference
  calls) so that "no second construction / no backend call" claims are
  expressible. Every other field mirrors a `self.*` attribute.
-/

/-- Round a rational to the nearest integer, ties to even — the semantics
of Python's builtin `round`. -/
def roundHalfEven (q : Rat) : Int :=
  let f := ⌊q⌋
  let r := q - (f : Rat)
  if r < 1/2 then f
  else if 1/2 < r then f + 1
  else if f % 2 = 0 then f else f + 1

/-- Python's `round(x, n)` for `n` decimal places. -/
def roundTo (n : Nat) (q : Rat) : Rat :=
  (roundHalfEven (q * 10 ^ n) : Rat) / 10 ^ n

/-- A loaded YOLO model handle: its class-name table `model.names`
(Python dict from class id to label, as an association list). -/
structure Model where
  names : List (Int × String)
deriving Repr, DecidableEq

/-- One raw detected box from the backend: `box.xyxy[0].tolist()`,
`float(box.conf[0])`, `int(box.cls[0])`. -/
structure RawBox where
  coords : List Rat
  conf : Rat
  cls : Int
deriving Repr, DecidableEq

/-- Raw per-frame backend output (`results[0]`): the box list and, when
the model produced segmentation output, `masks.xy` — one optional polygon
(list of `(x, y)` points) per index. -/
structure RawResult where
  boxes : List RawBox
  masks : Option (List (Option (List (Rat × Rat))))
deriving Repr, DecidableEq

/-- One decoded detection record. `mask = none` models the `"mask"` key
being absent from the Python dict; the other four keys are always
present. -/
structure Detection where
  box : List Rat
  label : String
  class_id : Int
  conf : Rat
  mask : Option (List (Rat × Rat))
deriving Repr, DecidableEq

/-- The state of an `ObjectDetectionService` instance.  Fields up to
`total_inference_time` mirror the attributes set in `__init__`;
`ev_constructions` / `ev_backend_calls` are instrumentation counters (see
module docstring), not attributes of the Python object. -/
structure ServiceState where
  model_path : String
  confidence : Rat
  model : Option Model
  is_initialized : Bool
  current_detections : List Detection
  lock_held : Bool
  last_inference_time : Rat
  total_inferences : Nat
  total_inference_time : Rat
  ev_constructions : Nat
  ev_backend_calls : Nat
deriving Repr, DecidableEq

/-- `ObjectDetectionService.__init__`: raises `ImportError` when
`YOLO_AVAILABLE` is false, otherwise produces the fresh state. -/
def mkService (model_path : String) (confidence : Rat)
    (yoloAvailable : Bool) : Except Unit ServiceState :=
  if yoloAvailable then
    .ok { model_path := model_path
          confidence := confidence
          model := none
          is_initialized := false
          current_detections := []
          lock_held := false
          last_inference_time := 0
          total_inferences := 0
          total_inference_time := 0
          ev_constructions := 0
          ev_backend_calls := 0 }
  else .error ()

/-- What the environment does during one `initialize()` attempt:
`YOLO(self.model_path)` raises; or it succeeds and the warm-up inference
raises; or both succeed. -/
inductive InitOutcome where
  | constructFails
  | warmupFails
  | ok
deriving Repr, DecidableEq

/-- `initialize()`.  Returns the post state and whether an exception
escaped (the `except` clause re-raises).  On `warmupFails` the model
attribute has already been assigned, and one construction plus one
backend call (the warm-up) have happened; `is_initialized` is only set
after the warm-up returns. -/
def initModel (yoloAvailable : Bool) (outcome : InitOutcome)
    (newModel : Model) (s : ServiceState) : ServiceState × Bool :=
  if s.is_initialized then (s, false)
  else if !yoloAvailable then (s, false)
  else
    match outcome with
    | .constructFails =>
        ({ s with ev_constructions := s.ev_constructions + 1 }, true)
    | .warmupFails =>
        ({ s with model := some newModel
                  ev_constructions := s.ev_constructions + 1
                  ev_backend_calls := s.ev_backend_calls + 1 }, true)
    | .ok =>
        ({ s with model := some newModel
                  is_initialized := true
                  ev_constructions := s.ev_constructions + 1
                  ev_backend_calls := s.ev_backend_calls + 1 }, false)

/-- Outcome of the inference call `self.model(image, ...)` for one
frame: it raises, or returns the list of per-frame results. -/
inductive BackendCall where
  | raises
  | returns (results : List RawResult)
deriving Repr, DecidableEq

/-- Decode the `i`-th box of a result.  `.error` models an exception
inside the decode loop: a missing class id in `model.names` (KeyError)
or `masks.xy[i]` out of range (IndexError). -/
def decodeBox (names : List (Int × String))
    (masks : Option (List (Option (List (Rat × Rat)))))
    (i : Nat) (b : RawBox) : Except Unit Detection :=
  match names.lookup b.cls with
  | none => .error ()
  | some label =>
    let base : Detection :=
      { box := b.coords.map (roundTo 1)
        label := label
        class_id := b.cls
        conf := roundTo 2 b.conf
        mask := none }
    match masks with
    | none => .ok base
    | some xy =>
      match xy.get? i with
      | none => .error ()
      | some none => .ok base
      | some (some segs) =>
          if segs.length > 0 then .ok { base with mask := some segs }
          else .ok base

/-- The decode loop `for i in range(len(boxes))`, starting at index `i`.
Any exception aborts the whole loop (the partial list is discarded by the
`except` handler in `detect`). -/
def decodeLoop (names : List (Int × String))
    (masks : Option (List (Option (List (Rat × Rat)))))
    (i : Nat) : List RawBox → Except Unit (List Detection)
  | [] => .ok []
  | b :: bs =>
    match decodeBox names masks i b with
    | .error e => .error e
    | .ok d =>
      match decodeLoop names masks (i + 1) bs with
      | .error e => .error e
      | .ok ds => .ok (d :: ds)

/-- Decoding of a whole backend return value: only `results[0]` is
examined, and an empty result list decodes to the empty batch (still a
success). -/
def decodeResults (names : List (Int × String)) :
    List RawResult → Except Unit (List Detection)
  | [] => .ok []
  | r :: _ => decodeLoop names r.masks 0 r.boxes

/-- What `detect()` produced: the lazy `initialize()` raised and the
exception propagated to the caller, or a batch was returned (possibly
empty via the fail-open handler). -/
inductive DetectResult where
  | initRaised
  | batch (dets : List Detection)
deriving Repr, DecidableEq

/-- Environment behaviour for one `detect()` call: what `initialize()`
would do if invoked, how the backend call behaves on this frame, and the
wall-clock latency `time.perf_counter()` measures around it. -/
structure CallSpec where
  initOut : InitOutcome
  newModel : Model
  call : BackendCall
  latency : Rat
deriving Repr, DecidableEq

/-- `detect()`.  Lazy initialization runs outside the `try` block, so its
exceptions propagate.  Inside the `try`: the backend call (calling a
`None` model raises immediately, before any backend work), decoding, and
the metrics update; any exception there is caught and yields `[]` with
the metrics untouched. -/
def detect (yoloAvailable : Bool) (c : CallSpec) (s : ServiceState) :
    ServiceState × DetectResult :=
  let (s1, raised) :=
    if !s.is_initialized then initModel yoloAvailable c.initOut c.newModel s
    else (s, false)
  if raised then (s1, .initRaised)
  else
    match s1.model with
    | none => (s1, .batch [])
    | some m =>
      let s2 := { s1 with ev_backend_calls := s1.ev_backend_calls + 1 }
      match c.call with
      | .raises => (s2, .batch [])
      | .returns results =>
        match decodeResults m.names results with
        | .error _ => (s2, .batch [])
        | .ok dets =>
          ({ s2 with last_inference_time := c.latency
                     total_inferences := s2.total_inferences + 1
                     total_inference_time := s2.total_inference_time + c.latency },
           .batch dets)

/-- `process_frame()`.  If the processing lock is already held the call
returns at once.  Otherwise the lock is taken, `detect` runs, and
`current_detections` is overwritten with whatever `detect` returned; the
`async with` block releases the lock even when `detect` raises, in which
case the exception escapes (second component `true`) and the slot is not
written. -/
def process_frame (yoloAvailable : Bool) (c : CallSpec)
    (s : ServiceState) : ServiceState × Bool :=
  if s.lock_held then (s, false)
  else
    match detect yoloAvailable c { s with lock_held := true } with
    | (s1, .initRaised) => ({ s1 with lock_held := false }, true)
    | (s1, .batch dets) =>
        ({ s1 with lock_held := false, current_detections := dets }, false)

/-- `get_current_detections()`. -/
def get_current_detections (s : ServiceState) : List Detection :=
  s.current_detections

/-- The metrics snapshot returned by `get_metrics()`. -/
structure Metrics where
  last_latency_ms : Rat
  avg_latency_ms : Rat
  total_detections : Nat
deriving Repr, DecidableEq

/-- `get_metrics()`: average latency guards against division by zero. -/
def get_metrics (s : ServiceState) : Metrics :=
  let avg_latency : Rat :=
    if s.total_inferences > 0 then
      s.total_inference_time / (s.total_inferences : Rat)
    else 0
  { last_latency_ms := s.last_inference_time * 1000
    avg_latency_ms := avg_latency * 1000
    total_detections := s.total_inferences }

/-! ## Shared concrete inputs for witnesses -/

/-- A tiny concrete class-name table. -/
def mW : Model := ⟨[(0, "person"), (2, "car")]⟩

/-- The fresh state produced by a successful construction with the
default arguments. -/
def sFresh : ServiceState :=
  { model_path := "yolo26n-seg.pt"
    confidence := 1/4
    model := none
    is_initialized := false
    current_detections := []
    lock_held := false
    last_inference_time := 0
    total_inferences := 0
    total_inference_time := 0
    ev_constructions := 0
    ev_backend_calls := 0 }

/-- A concrete state whose model has finished loading. -/
def sReady : ServiceState :=
  { sFresh with model := some mW, is_initialized := true
                ev_constructions := 1, ev_backend_calls := 1 }

/-- `sReady` with the processing gate held. -/
def sLocked : ServiceState := { sReady with lock_held := true }

/-- A call whose backend invocation raises. -/
def cRaise : CallSpec := ⟨.ok, mW, .raises, 1/100⟩

/-! ## C1: single-flight gating -/

/-- C1: if the processing gate is already held, `process_frame` returns
immediately without raising: the whole state — the current DetectionBatch
slot, every metrics accumulator, and the instrumentation counters (hence
no backend invocation) — is unchanged. -/
theorem process_frame_gate_held (ya : Bool) (c : CallSpec)
    (s : ServiceState) (h : s.lock_held = true) :
    process_frame ya c s = (s, false) := by
  simp [process_frame, h]

/-- Witness for C1 at a concrete locked state. -/
theorem process_frame_gate_held_witness :
    sLocked.lock_held = true ∧
    process_frame true cRaise sLocked = (sLocked, false) :=
  ⟨rfl, process_frame_gate_held true cRaise sLocked rfl⟩

/-! ## C4: idempotent initialization -/

/-- C4: calling `initialize()` when `is_initialized` already holds is a
complete no-op: no exception, every field unchanged, and the
instrumentation counters unchanged — so no model construction and no
warm-up inference happened. -/
theorem init_idempotent (ya : Bool) (out : InitOutcome) (m : Model)
    (s : ServiceState) (h : s.is_initialized = true) :
    initModel ya out m s = (s, false) := by
  simp [initModel, h]

/-- Witness for C4 at a concrete Ready state. -/
theorem init_idempotent_witness :
    sReady.is_initialized = true ∧
    initModel true .ok mW sReady = (sReady, false) :=
  ⟨rfl, init_idempotent true .ok mW sReady rfl⟩

/-! ## C7: construction-time availability check -/

/-- C7: constructing the service without the backend available raises
`ImportError`; with the backend available, construction succeeds
(returning the fresh state, with no exception). -/
theorem construction_availability (p : String) (conf : Rat) :
    mkService p conf false = .error () ∧
    mkService p conf true =
      .ok { model_path := p, confidence := conf, model := none
            is_initialized := false, current_detections := []
            lock_held := false, last_inference_time := 0
            total_inferences := 0, total_inference_time := 0
            ev_constructions := 0, ev_backend_calls := 0 } :=
  ⟨rfl, rfl⟩

/-! ## C9: initialization errors escape `detect()` -/

/-- C9: when the service is not yet initialized and the lazy
`initialize()` inside `detect()` raises (model construction or warm-up
fails), the exception propagates out of `detect()` — no batch, empty or
otherwise, is returned. -/
theorem detect_init_error_propagates (c : CallSpec) (s : ServiceState)
    (hinit : s.is_initialized = false)
    (hout : c.initOut = .constructFails ∨ c.initOut = .warmupFails) :
    (detect true c s).snd = .initRaised := by
  rcases hout with h | h <;>
    simp [detect, initModel, hinit, h]

/-- Witness for C9: a fresh service whose model construction fails. -/
theorem detect_init_error_propagates_witness :
    sFresh.is_initialized = false ∧
    (detect true ⟨.constructFails, mW, .raises, 0⟩ sFresh).snd
      = .initRaised :=
  ⟨rfl, detect_init_error_propagates ⟨.constructFails, mW, .raises, 0⟩
    sFresh rfl (Or.inl rfl)⟩

/-! ## C2: fail-open inference -/

/-- C2: if, after initialization has completed, the backend call raises or
the decode step fails, `detect()` returns the empty batch and leaves
`last_inference_time`, `total_inferences` and `total_inference_time`
exactly as they were (so `totalInferences` does not increase); the
detections slot is untouched too. -/
theorem detect_fail_open (ya : Bool) (c : CallSpec) (s : ServiceState)
    (m : Model) (hinit : s.is_initialized = true) (hm : s.model = some m)
    (hfail : c.call = .raises ∨
      ∃ rs, c.call = .returns rs ∧ decodeResults m.names rs = .error ()) :
    (detect ya c s).snd = .batch [] ∧
    (detect ya c s).fst.last_inference_time = s.last_inference_time ∧
    (detect ya c s).fst.total_inferences = s.total_inferences ∧
    (detect ya c s).fst.total_inference_time = s.total_inference_time ∧
    (detect ya c s).fst.current_detections = s.current_detections := by
  rcases hfail with h | ⟨rs, hc, hdec⟩
  · simp [detect, hinit, hm, h]
  · simp [detect, hinit, hm, hc, hdec]

/-- Witness for C2: a ready service whose backend raises on this frame. -/
theorem detect_fail_open_witness :
    sReady.is_initialized = true ∧ sReady.model = some mW ∧
    (detect true cRaise sReady).snd = .batch [] ∧
    (detect true cRaise sReady).fst.total_inferences
      = sReady.total_inferences :=
  ⟨rfl, rfl, (detect_fail_open true cRaise sReady mW rfl rfl
      (Or.inl rfl)).1,
    (detect_fail_open true cRaise sReady mW rfl rfl (Or.inl rfl)).2.2.1⟩
/-! ## Helper lemmas on `initModel` and `detect` -/

/-- `initialize()` in Ready state returns the state unchanged. -/
lemma initModel_ready (ya : Bool) (out : InitOutcome) (m : Model)
    (s : ServiceState) (h : s.is_initialized = true) :
    initModel ya out m s = (s, false) := by
  simp [initModel, h]

/-- `initialize()` never touches the detections slot, the lock, the
metrics accumulators, or the construction arguments. -/
lemma initModel_fields (ya : Bool) (out : InitOutcome) (m : Model)
    (s : ServiceState) :
    (initModel ya out m s).fst.current_detections = s.current_detections ∧
    (initModel ya out m s).fst.lock_held = s.lock_held ∧
    (initModel ya out m s).fst.last_inference_time = s.last_inference_time ∧
    (initModel ya out m s).fst.total_inferences = s.total_inferences ∧
    (initModel ya out m s).fst.total_inference_time = s.total_inference_time ∧
    (initModel ya out m s).fst.model_path = s.model_path ∧
    (initModel ya out m s).fst.confidence = s.confidence := by
  cases h : s.is_initialized <;> cases ya <;> cases out <;>
    simp [initModel, h]

/-- The model/readiness fields after `initialize()`: either both are
untouched, or the model was replaced while readiness is unchanged
(warm-up failure), or the model was replaced and the service is Ready. -/
lemma initModel_model_init (ya : Bool) (out : InitOutcome) (m : Model)
    (s : ServiceState) :
    ((initModel ya out m s).fst.model = s.model ∧
      (initModel ya out m s).fst.is_initialized = s.is_initialized) ∨
    ((initModel ya out m s).fst.model = some m ∧
      (initModel ya out m s).fst.is_initialized = s.is_initialized) ∨
    ((initModel ya out m s).fst.model = some m ∧
      (initModel ya out m s).fst.is_initialized = true) := by
  cases h : s.is_initialized <;> cases ya <;> cases out <;>
    simp [initModel, h]

/-- `initialize()` only reaches the Ready state when construction and
warm-up both succeeded (outcome `.ok`), and then no exception escaped. -/
lemma initModel_ready_only_ok (ya : Bool) (out : InitOutcome) (m : Model)
    (s : ServiceState) (h0 : s.is_initialized = false)
    (h1 : (initModel ya out m s).fst.is_initialized = true) :
    out = .ok ∧ (initModel ya out m s).snd = false := by
  cases ya <;> cases out <;> simp_all [initModel, h0]

/-- The pair produced by the lazy-initialization step at the top of
`detect()`. -/
lemma detect_init_pair (ya : Bool) (c : CallSpec) (s : ServiceState) :
    (if !s.is_initialized then initModel ya c.initOut c.newModel s
     else (s, false)) = (s, false) ∨
    ((if !s.is_initialized then initModel ya c.initOut c.newModel s
      else (s, false)) = initModel ya c.initOut c.newModel s ∧
      s.is_initialized = false) := by
  cases h : s.is_initialized <;> simp [h]

/-- `detect()` never touches the detections slot, the lock, or the
construction arguments. -/
lemma detect_fields (ya : Bool) (c : CallSpec) (s : ServiceState) :
    (detect ya c s).fst.current_detections = s.current_detections ∧
    (detect ya c s).fst.lock_held = s.lock_held ∧
    (detect ya c s).fst.model_path = s.model_path ∧
    (detect ya c s).fst.confidence = s.confidence := by
  unfold detect
  rcases he : (if !s.is_initialized then initModel ya c.initOut c.newModel s
      else (s, false)) with ⟨s1, raised⟩
  have hs1 : s1.current_detections = s.current_detections ∧
      s1.lock_held = s.lock_held ∧ s1.model_path = s.model_path ∧
      s1.confidence = s.confidence := by
    rcases detect_init_pair ya c s with h | ⟨h, _⟩
    · rw [he] at h
      obtain ⟨h1, _⟩ := Prod.mk.injEq .. ▸ h
      simp [h1]
    · rw [he] at h
      have := initModel_fields ya c.initOut c.newModel s
      rw [← h] at this
      exact ⟨this.1, this.2.1, this.2.2.2.2.2.1, this.2.2.2.2.2.2⟩
  simp only [he]
  cases raised
  · rcases hm : s1.model with _ | m
    · simpa [hm] using hs1
    · simp only [hm]
      rcases c.call with _ | rs
      · simpa using hs1
      · rcases hd : decodeResults m.names rs with e | ds <;>
          simpa [hd] using hs1
  · simpa using hs1

/-- The model/readiness fields after `detect()`: untouched, or replaced
with the lazily loaded model (readiness unchanged on warm-up failure, or
Ready). -/
lemma detect_model_init (ya : Bool) (c : CallSpec) (s : ServiceState) :
    ((detect ya c s).fst.model = s.model ∧
      (detect ya c s).fst.is_initialized = s.is_initialized) ∨
    ((detect ya c s).fst.model = some c.newModel ∧
      (detect ya c s).fst.is_initialized = s.is_initialized) ∨
    ((detect ya c s).fst.model = some c.newModel ∧
      (detect ya c s).fst.is_initialized = true) := by
  unfold detect
  rcases he : (if !s.is_initialized then initModel ya c.initOut c.newModel s
      else (s, false)) with ⟨s1, raised⟩
  have hs1 : (s1.model = s.model ∧ s1.is_initialized = s.is_initialized) ∨
      (s1.model = some c.newModel ∧ s1.is_initialized = s.is_initialized) ∨
      (s1.model = some c.newModel ∧ s1.is_initialized = true) := by
    rcases detect_init_pair ya c s with h | ⟨h, _⟩
    · rw [he] at h
      obtain ⟨h1, _⟩ := Prod.mk.injEq .. ▸ h
      simp [h1]
    · rw [he] at h
      have := initModel_model_init ya c.initOut c.newModel s
      rw [← h] at this
      exact this
  simp only [he]
  cases raised
  · rcases hm : s1.model with _ | m
    · simpa [hm] using hs1
    · simp only [hm]
      rw [hm] at hs1
      rcases c.call with _ | rs
      · simpa using hs1
      · rcases hd : decodeResults m.names rs with e | ds <;>
          simpa [hd] using hs1
  · simpa using hs1

/-- After `detect()` the inference counter has grown by zero or one, and
the time accumulator is unchanged or grew by the measured latency; both
grow together. -/
lemma detect_metrics_cases (ya : Bool) (c : CallSpec) (s : ServiceState) :
    ((detect ya c s).fst.total_inferences = s.total_inferences ∧
      (detect ya c s).fst.total_inference_time = s.total_inference_time) ∨
    ((detect ya c s).fst.total_inferences = s.total_inferences + 1 ∧
      (detect ya c s).fst.total_inference_time
        = s.total_inference_time + c.latency ∧
      (detect ya c s).fst.last_inference_time = c.latency) := by
  unfold detect
  rcases he : (if !s.is_initialized then initModel ya c.initOut c.newModel s
      else (s, false)) with ⟨s1, raised⟩
  have hs1 : s1.total_inferences = s.total_inferences ∧
      s1.total_inference_time = s.total_inference_time := by
    rcases detect_init_pair ya c s with h | ⟨h, _⟩
    · rw [he] at h
      obtain ⟨h1, _⟩ := Prod.mk.injEq .. ▸ h
      simp [h1]
    · rw [he] at h
      have := initModel_fields ya c.initOut c.newModel s
      rw [← h] at this
      exact ⟨this.2.2.2.1, this.2.2.2.2.1⟩
  simp only [he]
  cases raised
  · rcases hm : s1.model with _ | m
    · simpa [hm] using Or.inl hs1
    · simp only [hm]
      rcases c.call with _ | rs
      · simpa using Or.inl hs1
      · rcases hd : decodeResults m.names rs with e | ds
        · simpa [hd] using Or.inl hs1
        · simp only [hd]
          exact Or.inr ⟨by simp [hs1.1], by simp [hs1.2], by simp⟩
  · simpa using Or.inl hs1

/-! ## C6: DetectionBatch lifecycle (corrected) -/

/-- A stored detection from an earlier successful frame. -/
def dPrev : Detection := ⟨[1, 2, 3, 4], "person", 0, 9/10, none⟩

/-- A ready service that currently holds a non-empty batch. -/
def sPrev : ServiceState := { sReady with current_detections := [dPrev] }

/-- C6 counterexample: a non-dropped `process_frame` call whose backend
call raises does not leave the previously stored batch in place — it
overwrites the slot with the empty batch returned by the fail-open
handler. -/
theorem process_frame_failure_overwrites_cex :
    sPrev.lock_held = false ∧
    (process_frame true cRaise sPrev).snd = false ∧
    (process_frame true cRaise sPrev).fst.current_detections = [] ∧
    sPrev.current_detections = [dPrev] ∧ ([] : List Detection) ≠ [dPrev] := by
  refine ⟨rfl, rfl, rfl, rfl, by simp⟩

/-- C6 amended: the stored batch is overwritten by exactly the
non-dropped `process_frame` calls whose lazy initialization does not
raise; each such call stores whatever batch `detect` returned — the
empty batch when inference failed — while dropped calls and calls whose
lazy initialization raises leave the slot unchanged. -/
theorem batch_lifecycle (ya : Bool) (c : CallSpec) (s : ServiceState) :
    (s.lock_held = true →
      (process_frame ya c s).fst.current_detections
        = s.current_detections) ∧
    (s.lock_held = false →
      ∀ s1 r, detect ya c { s with lock_held := true } = (s1, r) →
        (r = .initRaised →
          (process_frame ya c s).fst.current_detections
            = s.current_detections) ∧
        ∀ dets, r = .batch dets →
          (process_frame ya c s).fst.current_detections = dets) := by
  constructor
  · intro h
    simp [process_frame, h]
  · intro h s1 r hdet
    constructor
    · intro hr
      subst hr
      have hf := (detect_fields ya c { s with lock_held := true }).1
      rw [hdet] at hf
      simp only [process_frame, h, Bool.false_eq_true, if_false, hdet]
      simpa using hf
    · intro dets hr
      subst hr
      simp [process_frame, h, hdet]

/-- A successful inference call: two boxes, the first with a segmentation
polygon. -/
def b1 : RawBox := ⟨[10, 20, 30, 40], 91/100, 0⟩

/-- Second raw box of the witness frame (no polygon). -/
def b2 : RawBox := ⟨[50, 60, 70, 80], 40/100, 2⟩

/-- The witness frame's raw backend output. -/
def rW : RawResult := ⟨[b1, b2], some [some [(1, 2), (3, 4)], none]⟩

/-- A call whose backend returns `rW`. -/
def cOk : CallSpec := ⟨.ok, mW, .returns [rW], 1/100⟩

/-- Decoded form of `b1`. -/
def d1 : Detection :=
  ⟨b1.coords.map (roundTo 1), "person", 0, roundTo 2 b1.conf,
    some [(1, 2), (3, 4)]⟩

/-- Decoded form of `b2`. -/
def d2 : Detection :=
  ⟨b2.coords.map (roundTo 1), "car", 2, roundTo 2 b2.conf, none⟩

/-- Witness for C6 (amended): a non-dropped successful call stores the
new two-element batch. -/
theorem batch_lifecycle_witness :
    sReady.lock_held = false ∧
    (process_frame true cOk sReady).fst.current_detections = [d1, d2] := by
  have h := (batch_lifecycle true cOk sReady).2 rfl _ _ rfl
  exact ⟨rfl, h.2 [d1, d2] rfl⟩

/-! ## C5: decode rounding -/

/-- The backend box of the spec's rounding example. -/
def bRound : RawBox := ⟨[10249/1000, 20251/1000, 30, 40], 8675/10000, 0⟩

/-- C5: every decoded coordinate is the backend coordinate rounded to one
decimal place and the decoded confidence is the backend confidence
rounded to two; concretely, [10.249, 20.251, 30.0, 40.0] decodes to
[10.2, 20.3, 30.0, 40.0] and confidence 0.8675 to 0.87. -/
theorem decode_rounding (names : List (Int × String))
    (masks : Option (List (Option (List (Rat × Rat)))))
    (i : Nat) (b : RawBox) (d : Detection)
    (h : decodeBox names masks i b = .ok d) :
    (d.box = b.coords.map (roundTo 1) ∧ d.conf = roundTo 2 b.conf) ∧
    ([(10249 : Rat)/1000, 20251/1000, 30, 40].map (roundTo 1)
        = [102/10, 203/10, 30, 40] ∧
      roundTo 2 ((8675 : Rat)/10000) = 87/100) := by
  constructor
  · unfold decodeBox at h
    rcases hl : names.lookup b.cls with _ | label
    · simp [hl] at h
    · rw [hl] at h
      rcases masks with _ | xy
      · simp only at h
        injection h with h
        subst h
        exact ⟨rfl, rfl⟩
      · simp only at h
        split at h
        · exact absurd h (by simp)
        · injection h with h
          subst h
          exact ⟨rfl, rfl⟩
        · split at h <;>
            (injection h with h
             subst h
             exact ⟨rfl, rfl⟩)
  · constructor
    · simp only [List.map]
      norm_num [roundTo, roundHalfEven]
    · norm_num [roundTo, roundHalfEven]

/-- Witness for C5: decode the spec's example box. -/
theorem decode_rounding_witness :
    decodeBox mW.names none 0 bRound
      = .ok ⟨bRound.coords.map (roundTo 1), "person", 0,
             roundTo 2 bRound.conf, none⟩ ∧
    ([(10249 : Rat)/1000, 20251/1000, 30, 40].map (roundTo 1)
        = [102/10, 203/10, 30, 40] ∧
      roundTo 2 ((8675 : Rat)/10000) = 87/100) :=
  ⟨rfl, (decode_rounding mW.names none 0 bRound _ rfl).2⟩

/-! ## C8: record shape, optional mask, native order -/

/-- Specification of the `mask` field the decode loop produces for index
`i`: present exactly when the backend supplied a non-empty polygon
there, and then it is exactly that polygon. -/
def maskSpec (masks : Option (List (Option (List (Rat × Rat)))))
    (i : Nat) : Option (List (Rat × Rat)) :=
  match masks with
  | none => none
  | some xy =>
    match xy[i]? with
    | some (some segs) => if segs.length > 0 then some segs else none
    | _ => none

/-- A successfully decoded box is exactly the record with rounded
coordinates, the label resolved through the class-name table, and the
mask given by `maskSpec`. -/
lemma decodeBox_ok_shape (names : List (Int × String))
    (masks : Option (List (Option (List (Rat × Rat)))))
    (i : Nat) (b : RawBox) (d : Detection)
    (h : decodeBox names masks i b = .ok d) :
    ∃ label, names.lookup b.cls = some label ∧
      d = { box := b.coords.map (roundTo 1), label := label
            class_id := b.cls, conf := roundTo 2 b.conf
            mask := maskSpec masks i } := by
  unfold decodeBox at h
  rcases hl : names.lookup b.cls with _ | label
  · simp [hl] at h
  · rw [hl] at h
    refine ⟨label, rfl, ?_⟩
    rcases masks with _ | xy
    · simp only at h
      injection h with h
      subst h
      rfl
    · simp only at h
      split at h
      next heq => exact absurd h (by simp)
      next heq =>
        rw [List.get?_eq_getElem?] at heq
        injection h with h
        subst h
        simp [maskSpec, heq]
      next segs heq =>
        rw [List.get?_eq_getElem?] at heq
        split at h
        next hlen =>
          injection h with h
          subst h
          simp [maskSpec, heq, hlen]
        next hlen =>
          injection h with h
          subst h
          simp [maskSpec, heq, hlen]

/-- A successful decode loop yields one detection per raw box, in the
backend's order, each decoded at its own index. -/
lemma decodeLoop_shape (names : List (Int × String))
    (masks : Option (List (Option (List (Rat × Rat)))))
    (bs : List RawBox) :
    ∀ (i : Nat) (ds : List Detection),
      decodeLoop names masks i bs = .ok ds →
      ds.length = bs.length ∧
      ∀ (j : Nat) (b : RawBox), bs[j]? = some b →
        ∃ d, ds[j]? = some d ∧ decodeBox names masks (i + j) b = .ok d := by
  induction bs with
  | nil =>
    intro i ds h
    unfold decodeLoop at h
    injection h with h
    subst h
    refine ⟨rfl, ?_⟩
    intro j b hb
    simp at hb
  | cons hd tl ih =>
    intro i ds h
    unfold decodeLoop at h
    split at h
    next => exact absurd h (by simp)
    next d hd1 =>
      split at h
      next => exact absurd h (by simp)
      next ds' hrec =>
        injection h with h
        subst h
        obtain ⟨hlen, hget⟩ := ih (i + 1) ds' hrec
        refine ⟨by simp [hlen], ?_⟩
        intro j b hb
        cases j with
        | zero =>
          simp only [List.getElem?_cons_zero, Option.some.injEq] at hb
          subst hb
          exact ⟨d, by simp, by simpa using hd1⟩
        | succ j =>
          simp only [List.getElem?_cons_succ] at hb
          obtain ⟨d', hd', hdec⟩ := hget j b hb
          refine ⟨d', by simpa using hd', ?_⟩
          have hidx : i + (j + 1) = i + 1 + j := by omega
          rw [hidx]
          exact hdec

/-- C8: a successfully decoded batch has exactly one record per backend
box, in the backend's native order (no re-sorting, deduplication or
extra filtering); each record carries exactly the rounded box, the
resolved label, the class id, the rounded confidence, and a `mask` field
that is present if and only if the backend provided a non-empty
segmentation at that index — in which case it is exactly that polygon
(never null or empty). -/
theorem decode_batch_shape (names : List (Int × String)) (r : RawResult)
    (rest : List RawResult) (ds : List Detection)
    (h : decodeResults names (r :: rest) = .ok ds) :
    (ds.length = r.boxes.length ∧
      ∀ (j : Nat) (b : RawBox), r.boxes[j]? = some b →
        ∃ label, names.lookup b.cls = some label ∧
          ds[j]? = some { box := b.coords.map (roundTo 1), label := label
                          class_id := b.cls, conf := roundTo 2 b.conf
                          mask := maskSpec r.masks j }) ∧
    ∀ (mks : Option (List (Option (List (Rat × Rat))))) (k : Nat)
      (pts : List (Rat × Rat)),
      maskSpec mks k = some pts ↔
        ∃ xy, mks = some xy ∧ xy[k]? = some (some pts) ∧ pts ≠ [] := by
  constructor
  · unfold decodeResults at h
    obtain ⟨hlen, hget⟩ := decodeLoop_shape names r.masks r.boxes 0 ds h
    refine ⟨hlen, ?_⟩
    intro j b hb
    obtain ⟨d, hd, hdec⟩ := hget j b hb
    obtain ⟨label, hl, hshape⟩ :=
      decodeBox_ok_shape names r.masks (0 + j) b d (by simpa using hdec)
    refine ⟨label, hl, ?_⟩
    rw [hd, hshape]
    simp
  · intro mks k pts
    rcases mks with _ | xy
    · simp [maskSpec]
    · constructor
      · intro hm
        refine ⟨xy, rfl, ?_⟩
        simp only [maskSpec] at hm
        rcases hk : xy[k]? with _ | seg
        · rw [hk] at hm
          simp at hm
        · rw [hk] at hm
          rcases seg with _ | segs
          · simp at hm
          · simp only at hm
            split at hm
            next hlen =>
              injection hm with hm
              subst hm
              exact ⟨rfl, List.length_pos.mp hlen⟩
            next => exact absurd hm (by simp)
      · rintro ⟨xy', hxy, hk, hne⟩
        injection hxy with hxy
        subst hxy
        simp [maskSpec, hk, List.length_pos.mpr hne]

/-- Witness for C8: a two-box frame, the first with a polygon, the second
without. -/
theorem decode_batch_shape_witness :
    decodeResults mW.names [rW] = .ok [d1, d2] ∧
    [d1, d2].length = rW.boxes.length ∧
    d1.mask = some [(1, 2), (3, 4)] ∧ d2.mask = none :=
  ⟨rfl, (decode_batch_shape mW.names rW [] [d1, d2] rfl).1.1, rfl, rfl⟩

/-! ## C3: metrics correctness and monotonicity -/

/-- Whether one `detect()` call reaches the success path (metrics
update): lazy initialization does not raise, a model object is present,
the backend call returns, and decoding succeeds. -/
def callSucceeds (ya : Bool) (c : CallSpec) (s : ServiceState) : Bool :=
  match (if !s.is_initialized then initModel ya c.initOut c.newModel s
         else (s, false)) with
  | (_, true) => false
  | (s1, false) =>
    match s1.model with
    | none => false
    | some m =>
      match c.call with
      | .raises => false
      | .returns rs =>
        match decodeResults m.names rs with
        | .ok _ => true
        | .error _ => false

/-- Run a sequence of `detect()` calls, threading the state. -/
def runDetects (ya : Bool) : List CallSpec → ServiceState → ServiceState
  | [], s => s
  | c :: cs, s => runDetects ya cs (detect ya c s).fst

/-- Every call of the sequence reaches the success path from the state it
runs in. -/
def allSucceed (ya : Bool) : List CallSpec → ServiceState → Bool
  | [], _ => true
  | c :: cs, s => callSucceeds ya c s && allSucceed ya cs (detect ya c s).fst

/-- A `detect()` call on the success path records exactly its latency:
the counter grows by one, the time accumulator by the latency, and the
last-latency field becomes the latency. -/
lemma detect_succeeds_metrics (ya : Bool) (c : CallSpec) (s : ServiceState)
    (h : callSucceeds ya c s = true) :
    (detect ya c s).fst.total_inferences = s.total_inferences + 1 ∧
    (detect ya c s).fst.total_inference_time
      = s.total_inference_time + c.latency ∧
    (detect ya c s).fst.last_inference_time = c.latency := by
  unfold callSucceeds at h
  split at h
  · exact absurd h (by simp)
  next s1 heq =>
    have hs1 : s1.total_inferences = s.total_inferences ∧
        s1.total_inference_time = s.total_inference_time := by
      rcases detect_init_pair ya c s with h' | ⟨h', _⟩
      · rw [heq] at h'
        obtain ⟨h1, _⟩ := Prod.mk.injEq .. ▸ h'
        simp [← h1]
      · rw [heq] at h'
        have := initModel_fields ya c.initOut c.newModel s
        rw [← h'] at this
        exact ⟨this.2.2.2.1, this.2.2.2.2.1⟩
    split at h
    · exact absurd h (by simp)
    next m hm =>
      split at h
      · exact absurd h (by simp)
      next rs hcall =>
        split at h
        next ds hd =>
          unfold detect
          rw [heq]
          simp [hm, hcall, hd, hs1.1, hs1.2]
        next => exact absurd h (by simp)

/-- Over a sequence of all-successful `detect()` calls the counter grows
by the number of calls and the accumulator by the sum of the recorded
latencies. -/
lemma runDetects_metrics (ya : Bool) (cs : List CallSpec) :
    ∀ s : ServiceState, allSucceed ya cs s = true →
      (runDetects ya cs s).total_inferences
        = s.total_inferences + cs.length ∧
      (runDetects ya cs s).total_inference_time
        = s.total_inference_time + (cs.map CallSpec.latency).sum := by
  induction cs with
  | nil => intro s _; simp [runDetects]
  | cons c cs ih =>
    intro s h
    simp only [allSucceed, Bool.and_eq_true] at h
    obtain ⟨h1, h2⟩ := h
    obtain ⟨hi, ht, _⟩ := detect_succeeds_metrics ya c s h1
    obtain ⟨ihi, iht⟩ := ih (detect ya c s).fst h2
    constructor
    · rw [runDetects, ihi, hi]
      simp only [List.length_cons]
      omega
    · rw [runDetects, iht, ht]
      simp only [List.map, List.sum_cons]
      ring

/-- One public operation on the service. -/
inductive Op where
  | opInit (out : InitOutcome) (m : Model)
  | opDetect (c : CallSpec)
  | opProcess (c : CallSpec)

/-- Apply one operation, keeping the post state. -/
def applyOp (ya : Bool) (o : Op) (s : ServiceState) : ServiceState :=
  match o with
  | .opInit out m => (initModel ya out m s).fst
  | .opDetect c => (detect ya c s).fst
  | .opProcess c => (process_frame ya c s).fst

/-- Run a sequence of operations. -/
def runOps (ya : Bool) : List Op → ServiceState → ServiceState
  | [], s => s
  | o :: os, s => runOps ya os (applyOp ya o s)

/-- `process_frame` never decreases the inference counter. -/
lemma process_frame_metrics_mono (ya : Bool) (c : CallSpec)
    (s : ServiceState) :
    s.total_inferences ≤ (process_frame ya c s).fst.total_inferences := by
  unfold process_frame
  cases hl : s.lock_held
  · simp only [hl, Bool.false_eq_true, if_false]
    have hc := detect_metrics_cases ya c { s with lock_held := true }
    rcases hd : detect ya c { s with lock_held := true } with ⟨s1, r⟩
    rw [hd] at hc
    simp only [Prod.fst] at hc
    have hs1 : s.total_inferences ≤ s1.total_inferences := by
      rcases hc with ⟨h1, _⟩ | ⟨h1, _⟩ <;> simp only [h1] <;> simp
    cases r
    · simpa using hs1
    · simpa using hs1
  · simp [hl]

/-- No operation decreases the inference counter. -/
lemma applyOp_metrics_mono (ya : Bool) (o : Op) (s : ServiceState) :
    s.total_inferences ≤ (applyOp ya o s).total_inferences := by
  cases o with
  | opInit out m =>
    have := (initModel_fields ya out m s).2.2.2.1
    simp [applyOp, this]
  | opDetect c =>
    rcases detect_metrics_cases ya c s with ⟨h1, _⟩ | ⟨h1, _⟩ <;>
      simp [applyOp, h1]
  | opProcess c => exact process_frame_metrics_mono ya c s

/-- The counter is monotone over any operation sequence. -/
lemma runOps_metrics_mono (ya : Bool) (os : List Op) :
    ∀ s : ServiceState,
      s.total_inferences ≤ (runOps ya os s).total_inferences := by
  induction os with
  | nil => intro s; simp [runOps]
  | cons o os ih =>
    intro s
    exact le_trans (applyOp_metrics_mono ya o s) (ih (applyOp ya o s))

/-- C3: from a freshly constructed service, after N all-successful
`detect()` calls with latencies l1..lN, the snapshot reports
`total_detections = N` and `avg_latency_ms = ((l1+...+lN)/N) * 1000`
(exactly, in the rational model); `avg_latency_ms = 0` on the fresh
service (N = 0); and `total_detections` never decreases over any
sequence of operations. -/
theorem metrics_correct (p : String) (cf : Rat) (ya : Bool)
    (s0 : ServiceState) (h0 : mkService p cf ya = .ok s0)
    (cs : List CallSpec) (hall : allSucceed ya cs s0 = true) :
    (get_metrics (runDetects ya cs s0)).total_detections = cs.length ∧
    (get_metrics s0).avg_latency_ms = 0 ∧
    (0 < cs.length →
      (get_metrics (runDetects ya cs s0)).avg_latency_ms
        = (cs.map CallSpec.latency).sum / (cs.length : Rat) * 1000) ∧
    ∀ (s : ServiceState) (os : List Op),
      s.total_inferences ≤ (runOps ya os s).total_inferences := by
  have hs0 : s0.total_inferences = 0 ∧ s0.total_inference_time = 0 := by
    cases ya
    · simp [mkService] at h0
    · simp only [mkService, if_true] at h0
      injection h0 with h0
      rw [← h0]
      exact ⟨rfl, rfl⟩
  obtain ⟨hn, ht⟩ := hs0
  obtain ⟨hN, hT⟩ := runDetects_metrics ya cs s0 hall
  refine ⟨?_, ?_, ?_, ?_⟩
  · simp [get_metrics, hN, hn]
  · simp [get_metrics, hn]
  · intro hpos
    have hne : (cs.length : Rat) ≠ 0 := by
      exact_mod_cast Nat.pos_iff_ne_zero.mp hpos
    simp only [get_metrics, hN, hT, hn, ht, Nat.zero_add, zero_add]
    rw [if_pos hpos]
  · intro s os
    exact runOps_metrics_mono ya os s

/-- First witness call: lazy initialization succeeds, backend returns an
empty result list, latency 0.01 s. -/
def cA : CallSpec := ⟨.ok, mW, .returns [], 1/100⟩

/-- Second witness call: backend returns an empty result list, latency
0.03 s. -/
def cB : CallSpec := ⟨.ok, mW, .returns [], 3/100⟩

/-- Witness for C3: two successful calls from a fresh service. -/
theorem metrics_correct_witness :
    allSucceed true [cA, cB] sFresh = true ∧
    (get_metrics (runDetects true [cA, cB] sFresh)).total_detections = 2 ∧
    (get_metrics (runDetects true [cA, cB] sFresh)).avg_latency_ms
      = ([cA, cB].map CallSpec.latency).sum
          / (([cA, cB].length : Nat) : Rat) * 1000 := by
  have hall : allSucceed true [cA, cB] sFresh = true := by rfl
  have h := metrics_correct "yolo26n-seg.pt" (1/4) true sFresh rfl
    [cA, cB] hall
  exact ⟨hall, h.1, h.2.2.1 (by simp)⟩

/-! ## C10: readiness invariant -/

/-- The model/readiness fields after `process_frame`: same three-way
disjunction as for `detect`. -/
lemma process_frame_model_init (ya : Bool) (c : CallSpec)
    (s : ServiceState) :
    ((process_frame ya c s).fst.model = s.model ∧
      (process_frame ya c s).fst.is_initialized = s.is_initialized) ∨
    ((process_frame ya c s).fst.model = some c.newModel ∧
      (process_frame ya c s).fst.is_initialized = s.is_initialized) ∨
    ((process_frame ya c s).fst.model = some c.newModel ∧
      (process_frame ya c s).fst.is_initialized = true) := by
  unfold process_frame
  cases hl : s.lock_held
  · simp only [hl, Bool.false_eq_true, if_false]
    have hc := detect_model_init ya c { s with lock_held := true }
    rcases hd : detect ya c { s with lock_held := true } with ⟨s1, r⟩
    rw [hd] at hc
    simp only [Prod.fst] at hc
    cases r
    · simpa using hc
    · simpa using hc
  · simp [hl]

/-- From the three-way model/readiness disjunction: the readiness
invariant is preserved. -/
lemma model_init_of_cases {s t : ServiceState} {m : Model}
    (hd : (t.model = s.model ∧ t.is_initialized = s.is_initialized) ∨
          (t.model = some m ∧ t.is_initialized = s.is_initialized) ∨
          (t.model = some m ∧ t.is_initialized = true))
    (hinv : s.is_initialized = true → s.model ≠ none) :
    t.is_initialized = true → t.model ≠ none := by
  rcases hd with ⟨h1, h2⟩ | ⟨h1, h2⟩ | ⟨h1, h2⟩
  · exact fun ht => h1 ▸ hinv (h2 ▸ ht)
  · exact fun _ => by simp [h1]
  · exact fun _ => by simp [h1]

/-- From the three-way model/readiness disjunction: readiness never
reverts. -/
lemma init_mono_of_cases {s t : ServiceState} {m : Model}
    (hd : (t.model = s.model ∧ t.is_initialized = s.is_initialized) ∨
          (t.model = some m ∧ t.is_initialized = s.is_initialized) ∨
          (t.model = some m ∧ t.is_initialized = true)) :
    s.is_initialized = true → t.is_initialized = true := by
  rcases hd with ⟨_, h2⟩ | ⟨_, h2⟩ | ⟨_, h2⟩
  · exact fun hs => h2 ▸ hs
  · exact fun hs => h2 ▸ hs
  · exact fun _ => h2

/-- C10: a freshly constructed service is not yet Ready; every operation
preserves the invariant "Ready implies a model object is loaded"; no
operation ever resets readiness to false; `initialize()` reaches Ready
only when construction and warm-up both completed without raising; and
along any operation sequence from a constructed service the invariant
holds. -/
theorem readiness_invariant :
    (∀ (p : String) (cf : Rat) (ya : Bool) (s0 : ServiceState),
      mkService p cf ya = .ok s0 → s0.is_initialized = false) ∧
    (∀ (ya : Bool) (o : Op) (s : ServiceState),
      (s.is_initialized = true → s.model ≠ none) →
      ((applyOp ya o s).is_initialized = true →
        (applyOp ya o s).model ≠ none)) ∧
    (∀ (ya : Bool) (o : Op) (s : ServiceState),
      s.is_initialized = true → (applyOp ya o s).is_initialized = true) ∧
    (∀ (ya : Bool) (out : InitOutcome) (m : Model) (s : ServiceState),
      s.is_initialized = false →
      (initModel ya out m s).fst.is_initialized = true →
      out = .ok ∧ (initModel ya out m s).snd = false) ∧
    (∀ (p : String) (cf : Rat) (ya : Bool) (s0 : ServiceState)
      (os : List Op), mkService p cf ya = .ok s0 →
      ((runOps ya os s0).is_initialized = true →
        (runOps ya os s0).model ≠ none)) := by
  have hfresh : ∀ (p : String) (cf : Rat) (ya : Bool) (s0 : ServiceState),
      mkService p cf ya = .ok s0 → s0.is_initialized = false := by
    intro p cf ya s0 h0
    cases ya
    · simp [mkService] at h0
    · simp only [mkService, if_true] at h0
      injection h0 with h0
      rw [← h0]
  have hcases : ∀ (ya : Bool) (o : Op) (s : ServiceState),
      ((applyOp ya o s).model = s.model ∧
        (applyOp ya o s).is_initialized = s.is_initialized) ∨
      (∃ m, ((applyOp ya o s).model = some m ∧
          (applyOp ya o s).is_initialized = s.is_initialized) ∨
        ((applyOp ya o s).model = some m ∧
          (applyOp ya o s).is_initialized = true)) := by
    intro ya o s
    cases o with
    | opInit out m =>
      rcases initModel_model_init ya out m s with h | h | h
      · exact Or.inl h
      · exact Or.inr ⟨m, Or.inl h⟩
      · exact Or.inr ⟨m, Or.inr h⟩
    | opDetect c =>
      rcases detect_model_init ya c s with h | h | h
      · exact Or.inl h
      · exact Or.inr ⟨c.newModel, Or.inl h⟩
      · exact Or.inr ⟨c.newModel, Or.inr h⟩
    | opProcess c =>
      rcases process_frame_model_init ya c s with h | h | h
      · exact Or.inl h
      · exact Or.inr ⟨c.newModel, Or.inl h⟩
      · exact Or.inr ⟨c.newModel, Or.inr h⟩
  have hop : ∀ (ya : Bool) (o : Op) (s : ServiceState),
      (s.is_initialized = true → s.model ≠ none) →
      ((applyOp ya o s).is_initialized = true →
        (applyOp ya o s).model ≠ none) := by
    intro ya o s hinv
    rcases hcases ya o s with h | ⟨m, h⟩
    · exact model_init_of_cases (m := mW) (Or.inl h) hinv
    · exact model_init_of_cases (m := m) (Or.inr h) hinv
  have hmono : ∀ (ya : Bool) (o : Op) (s : ServiceState),
      s.is_initialized = true → (applyOp ya o s).is_initialized = true := by
    intro ya o s
    rcases hcases ya o s with h | ⟨m, h⟩
    · exact init_mono_of_cases (m := mW) (Or.inl h)
    · exact init_mono_of_cases (m := m) (Or.inr h)
  refine ⟨hfresh, hop, hmono, ?_, ?_⟩
  · intro ya out m s h0 h1
    cases ya <;> cases out <;> simp_all [initModel, h0]
  · intro p cf ya s0 os h0
    have hinv0 : s0.is_initialized = true → s0.model ≠ none := by
      intro h
      exact absurd h (by simp [hfresh p cf ya s0 h0])
    clear h0
    induction os generalizing s0 with
    | nil => simpa [runOps] using hinv0
    | cons o os ih =>
      exact ih (applyOp ya o s0) (hop ya o s0 hinv0)

/-- Witness for C10 at concrete states and operations. -/
theorem readiness_invariant_witness :
    sFresh.is_initialized = false ∧
    ((applyOp true (.opDetect cOk) sFresh).is_initialized = true →
      (applyOp true (.opDetect cOk) sFresh).model ≠ none) ∧
    (applyOp true (.opDetect cOk) sReady).is_initialized = true ∧
    (InitOutcome.ok = InitOutcome.ok ∧
      (initModel true .ok mW sFresh).snd = false) ∧
    ((runOps true [.opDetect cOk] sFresh).is_initialized = true →
      (runOps true [.opDetect cOk] sFresh).model ≠ none) :=
  ⟨readiness_invariant.1 "yolo26n-seg.pt" (1/4) true sFresh rfl,
   readiness_invariant.2.1 true (.opDetect cOk) sFresh
     (fun h => by simp [sFresh] at h),
   readiness_invariant.2.2.1 true (.opDetect cOk) sReady rfl,
   readiness_invariant.2.2.2.1 true .ok mW sFresh rfl rfl,
   readiness_invariant.2.2.2.2 "yolo26n-seg.pt" (1/4) true sFresh
     [.opDetect cOk] rfl⟩
